import Mathlib

/-!
Verification of the CILISSA metric-computation engine (`cilissa/images.py`,
`cilissa/metrics.py`).

Modelling conventions:
* Pixel values are modelled as exact rationals (`ℚ`); the transcendental
  outer layer (`log10`, `arccos`, `sqrt`) uses `ℝ`/`EReal`.
* A numpy array is modelled as its shape together with a total entry
  function (`MatF` for 2-D, `Buf` for an image buffer that is either 2-D
  grayscale or 3-D color, mirroring `Image.im`).
* The scipy filters `gaussian_filter` and `uniform_filter` are external
  collaborators, so the metric definitions are parametrized by an arbitrary
  filter function; shape preservation is an explicit hypothesis when needed.
* A numpy float NaN is modelled by `Option` (`none` = NaN) at the places
  the claims depend on it (empty-slice means, 0/0 spectral ratios).
  Rational division by zero inside a masked-off region (where the source
  never reads the quotient) is left at Lean's junk value `0`.
* In-place numpy assignments are modelled in a heap-passing monad `M`
  (see the frame section) in order to state the no-mutation contract.
-/

/-- A 2-D float array: height, width, and a total entry function.
Entries outside the `h × w` range are irrelevant junk. -/
structure MatF where
  h : ℕ
  w : ℕ
  f : ℕ → ℕ → ℚ

namespace MatF

/-- Pointwise unary operation. -/
def map1 (g : ℚ → ℚ) (a : MatF) : MatF := ⟨a.h, a.w, fun i j => g (a.f i j)⟩

/-- Pointwise binary operation; numpy broadcasting of two same-shaped
arrays, the shape is taken from the first operand (the metric engine only
combines same-shaped arrays, per the `ImagePair` shape invariant). -/
def map2 (g : ℚ → ℚ → ℚ) (a b : MatF) : MatF :=
  ⟨a.h, a.w, fun i j => g (a.f i j) (b.f i j)⟩

instance : Add MatF := ⟨map2 (· + ·)⟩
instance : Sub MatF := ⟨map2 (· - ·)⟩
instance : Mul MatF := ⟨map2 (· * ·)⟩
instance : Div MatF := ⟨map2 (· / ·)⟩

/-- Multiplication by a scalar. -/
def scale (c : ℚ) (a : MatF) : MatF := map1 (fun x => c * x) a

/-- Addition of a scalar constant. -/
def addC (c : ℚ) (a : MatF) : MatF := map1 (fun x => x + c) a

/-- Row-major list of the entries of the array. -/
def vals (a : MatF) : List ℚ :=
  (List.range a.h).flatMap fun i => (List.range a.w).map fun j => a.f i j

/-- The `ndarray.max()` of a 2-D array. For an empty array numpy raises;
that branch is never reached by the theorems below, which carry
non-emptiness hypotheses, so the junk value `0` is used. -/
def maxQ (a : MatF) : ℚ :=
  match a.vals with
  | [] => 0
  | x :: xs => xs.foldl max x

/-- The `ndarray.min()` of a 2-D array (same empty-array convention). -/
def minQ (a : MatF) : ℚ :=
  match a.vals with
  | [] => 0
  | x :: xs => xs.foldl min x

/-- The `ndarray.mean()` of a 2-D array: `none` models the NaN numpy
produces (with a warning, not an exception) for an empty array. -/
def mean (a : MatF) : Option ℚ :=
  if a.h = 0 ∨ a.w = 0 then none
  else some ((∑ i in Finset.range a.h, ∑ j in Finset.range a.w, a.f i j) / (a.h * a.w))

end MatF

/-- The pixel buffer `Image.im`: a 2-D (grayscale) or 3-D (color, the last
axis indexing channels) numeric array, as produced by `cv2.imread`. -/
inductive Buf where
  | gray (h w : ℕ) (f : ℕ → ℕ → ℚ)
  | color (h w c : ℕ) (f : ℕ → ℕ → ℕ → ℚ)

namespace Buf

/-- Row-major flattened entries of the buffer. -/
def vals : Buf → List ℚ
  | gray h w f =>
      (List.range h).flatMap fun i => (List.range w).map fun j => f i j
  | color h w c f =>
      (List.range h).flatMap fun i =>
        (List.range w).flatMap fun j => (List.range c).map fun ch => f i j ch

/-- The buffer has at least one element (numpy reductions raise on
zero-size arrays; the spec's data model requires non-empty pixels). -/
def nonempty : Buf → Prop
  | gray h w _ => 0 < h ∧ 0 < w
  | color h w c _ => 0 < h ∧ 0 < w ∧ 0 < c

instance : ∀ b : Buf, Decidable b.nonempty
  | gray _ _ _ => inferInstanceAs (Decidable (_ ∧ _))
  | color _ _ _ _ => inferInstanceAs (Decidable (_ ∧ _ ∧ _))

/-- The `ndarray.max()` of the buffer; `none` models the exception numpy
raises on a zero-size reduction. -/
def maxVal (b : Buf) : Option ℚ :=
  match b.vals with
  | [] => none
  | x :: xs => some (xs.foldl max x)

/-- Source `Image.channels_num`: 1 for a 2-D array, else the size of the
last axis. -/
def channels_num : Buf → ℕ
  | gray _ _ _ => 1
  | color _ _ c _ => c

/-- The numpy basic slice `im[:, :, ch]`. On a 2-D array numpy raises
IndexError (too many indices); on a 3-D array it raises when `ch` is out
of range, and otherwise yields the 2-D channel plane. -/
def sliceChannel : Buf → ℕ → Except String MatF
  | gray _ _ _, _ => .error "too many indices for array"
  | color h w c f, ch =>
      if ch < c then .ok ⟨h, w, fun i j => f i j ch⟩
      else .error "index out of bounds for axis 2"

end Buf

/-- Source class `Image` (`cilissa/images.py`): the wrapper around the
decoded pixel buffer. Path and name are informational only and omitted. -/
structure Image where
  im : Buf

/-- Source `Image.channels_num`. -/
def Image.channels_num (img : Image) : ℕ := img.im.channels_num

/-- Source `Image.as_float`: a copy of the buffer promoted to a float
dtype. The promotion is value-preserving, so on the value level it is the
identity; the copy (vs alias) semantics matters only for the mutation
claim and is modelled in the heap section below. -/
def Image.as_float (img : Image) : Buf := img.im

/-- Source class `ImagePair`: reference image and measured image `A`. -/
structure ImagePair where
  ref : Image
  A : Image

/-- Source `ImagePair.__getitem__`: index 0 is the reference, index 1 the
measured image, anything else raises IndexError. -/
def ImagePair.get (p : ImagePair) (k : ℕ) : Except String Image :=
  if k = 0 then .ok p.ref
  else if k = 1 then .ok p.A
  else .error "IndexError"

/-- Source `ImagePair.as_floats`. -/
def ImagePair.as_floats (p : ImagePair) : Buf × Buf :=
  (p.ref.as_float, p.A.as_float)

/-- Both buffers have the same shape (`ImagePair.matching_shape`). -/
def ImagePair.matching_shape (p : ImagePair) : Prop :=
  match p.ref.im, p.A.im with
  | .gray h w _, .gray h' w' _ => h = h' ∧ w = w'
  | .color h w c _, .color h' w' c' _ => h = h' ∧ w = w' ∧ c = c'
  | _, _ => False

/-- Arithmetic mean of a list of rationals (`np.mean` on a 1-D float
array); junk `0` on the empty list, which the theorems exclude. -/
def listMean (l : List ℚ) : ℚ := l.sum / l.length

/-- Source `MSE.analyze`: mean over all elements of the squared
elementwise difference of the two float views. Shapes are assumed
compatible (a mismatch raises in numpy; the claims quantify over
matching-shape pairs). -/
def MSE.analyze (p : ImagePair) : ℚ :=
  let im := p.as_floats
  listMean (List.zipWith (fun a b => (a - b) ^ 2) im.1.vals im.2.vals)

/-- The numpy `log10` on a float scalar as an extended real: `log10 0`
is `-inf`. (A negative argument would be NaN; it is never reached since
the arguments are a nonnegative max and a positive MSE.) -/
noncomputable def npLog10 (q : ℚ) : EReal :=
  if q = 0 then ⊥ else ((Real.logb 10 (q : ℝ) : ℝ) : EReal)

/-- Source `PSNR.analyze`: `dmax` is the max of the raw buffer of
`image_pair[0]` (the reference); `err` is the MSE of the pair; zero error
gives `np.inf`, otherwise `20*log10(dmax) - 10*log10(err)`. -/
noncomputable def PSNR.analyze (p : ImagePair) : Except String EReal :=
  match p.get 0 with
  | .error e => .error e
  | .ok img0 =>
    match img0.im.maxVal with
    | none => .error "zero-size array reduction"
    | some dmax =>
      let err := MSE.analyze p
      .ok (if err = 0 then ⊤ else 20 * npLog10 dmax - 10 * npLog10 err)

/-- Python truthiness fallback `a or b` for an optional int `a`
(`self.channels_num or image_pair[0].channels_num` in the three
multi-channel metrics): `None` and `0` both fall back to `b`. -/
def pyOrNat (a : Option ℕ) (b : ℕ) : ℕ :=
  match a with
  | none => b
  | some n => if n = 0 then b else n

/-- Python `int()` on a nonnegative rational scalar (truncation), used for
the SSIM pad `int(truncate * sigma + 0.5)`. -/
def pyInt (q : ℚ) : ℕ := q.floor.toNat

/-- Source class `SSIM`: configuration fields bound by `__init__`. -/
structure SSIM where
  channels_num : Option ℕ
  sigma : ℚ
  truncate : ℚ
  K1 : ℚ
  K2 : ℚ

/-- Source `SSIM.__init__` (argument order of the source signature):
stores the fields, then raises ValueError if `K1 < 0`, `K2 < 0`,
`sigma < 0` or `truncate < 0` — note the checks are strict negativity
tests although the source comments require `0 < sigma` and
`0 < truncate`. -/
def SSIM.init (channels_num : Option ℕ) (sigma truncate K1 K2 : ℚ) :
    Except String SSIM :=
  if K1 < 0 then .error "K1 must be positive!"
  else if K2 < 0 then .error "K2 must be positive!"
  else if sigma < 0 then .error "Sigma must be positive!"
  else if truncate < 0 then .error "Truncate must be positive!"
  else .ok ⟨channels_num, sigma, truncate, K1, K2⟩

/-- The SSIM defaults `sigma=1.5, truncate=3.5, K1=0.01, K2=0.03`. -/
def ssimDefault : SSIM := ⟨none, 3/2, 7/2, 1/100, 3/100⟩

/-- Abstract `scipy.ndimage.gaussian_filter(im, truncate=t, sigma=s)` as
called by SSIM: an arbitrary collaborator function of sigma, truncate and
the image. -/
abbrev GFilter := ℚ → ℚ → MatF → MatF

/-- The SSIM crop margin `pad = int(truncate * sigma + 0.5)`. -/
def SSIM.pad (cfg : SSIM) : ℕ := pyInt (cfg.truncate * cfg.sigma + 1/2)

/-- Modelled from the spec: `cilissa.helpers.crop_array` (helpers.py is
not among the provided sources). Per the spec, it crops a border of
`pad` pixels on every side of the 2-D array before averaging. -/
def crop_array (a : MatF) (pad : ℕ) : MatF :=
  ⟨a.h - 2 * pad, a.w - 2 * pad, fun i j => a.f (i + pad) (j + pad)⟩

/-- Source `SSIM.mssim_single_channel`: Gaussian-weighted means, variances
and covariance, the SSIM map (formula 13), then the mean of the map with
the filter radius cropped from every border. `none` is the NaN produced
by the mean of an empty crop. -/
def SSIM.mssim_single_channel (gf : GFilter) (cfg : SSIM) (im1 im2 : MatF) :
    Option ℚ :=
  let dmax := im1.maxQ
  let dmin := im1.minQ
  let drange := dmax - dmin
  let ux := gf cfg.sigma cfg.truncate im1
  let uy := gf cfg.sigma cfg.truncate im2
  let uxx := gf cfg.sigma cfg.truncate (im1 * im1)
  let uyy := gf cfg.sigma cfg.truncate (im2 * im2)
  let uxy := gf cfg.sigma cfg.truncate (im1 * im2)
  let vx := uxx - ux * ux
  let vy := uyy - uy * uy
  let vxy := uxy - ux * uy
  let L := drange
  let C1 := (cfg.K1 * L) ^ 2
  let C2 := (cfg.K2 * L) ^ 2
  let A1 := ((ux * uy).scale 2).addC C1
  let A2 := (vxy.scale 2).addC C2
  let B1 := (ux * ux + uy * uy).addC C1
  let B2 := (vx + vy).addC C2
  let D := B1 * B2
  let S := (A1 * A2) / D
  (crop_array S cfg.pad).mean

/-- Per-channel loop shared by SSIM/UIQI/VIF-P `analyze`: slice channel
`ch` out of both float views for `ch = 0 .. n-1` and apply the
single-channel computation; a slicing IndexError propagates. -/
def chanLoop (single : MatF → MatF → α) (im1 im2 : Buf) : ℕ → Except String (List α)
  | 0 => .ok []
  | n + 1 => do
    let l ← chanLoop single im1 im2 n
    let c1 ← im1.sliceChannel n
    let c2 ← im2.sliceChannel n
    .ok (l ++ [single c1 c2])

/-- Mean of a 1-D float results array whose entries may be NaN (`none`):
NaN propagates through `np.mean`, and the mean of an empty array is NaN. -/
def npMeanOpt (l : List (Option ℚ)) : Option ℚ :=
  if l.length = 0 then none
  else if l.all (·.isSome) then some ((l.map (·.getD 0)).sum / l.length)
  else none

/-- Source `SSIM.analyze`: float views, channel count from the config with
truthiness fallback to `image_pair[0].channels_num`, per-channel MSSIM,
then the mean over channels. -/
def SSIM.analyze (gf : GFilter) (cfg : SSIM) (p : ImagePair) :
    Except String (Option ℚ) :=
  match p.get 0 with
  | .error e => .error e
  | .ok img0 =>
    let im := p.as_floats
    let ch_num := pyOrNat cfg.channels_num img0.channels_num
    match chanLoop (SSIM.mssim_single_channel gf cfg) im.1 im.2 ch_num with
    | .error e => .error e
    | .ok results => .ok (npMeanOpt results)

/-- Source class `UIQI`: configuration fields bound by `__init__`
(`channels_num` optional override, `block_size` default 8). -/
structure UIQI where
  channels_num : Option ℕ
  block_size : ℕ

/-- The UIQI defaults. -/
def uiqiDefault : UIQI := ⟨none, 8⟩

/-- Abstract `scipy.ndimage.filters.uniform_filter(im, block_size)` as
called by UIQI: an arbitrary collaborator function of the window size and
the image. -/
abbrev UFilter := ℕ → MatF → MatF

/-- The windowed terms computed by `UIQI.uiqi_single_channel` before the
quality map is assembled (named after the source variables; `cross` is
`im12_sum_mul` and `ssum` is `im12_sq_sum_mul`). -/
structure UIQI.Terms where
  numerator : MatF
  denominator1 : MatF
  denominator : MatF
  cross : MatF
  ssum : MatF

/-- Source `UIQI.uiqi_single_channel`, lines computing the windowed
sums and the numerator/denominator arrays. -/
def UIQI.terms (uf : UFilter) (bs : ℕ) (im1 im2 : MatF) : UIQI.Terms :=
  let N : ℚ := (bs : ℚ) ^ 2
  let im1_sq := im1 * im1
  let im2_sq := im2 * im2
  let im12 := im1 * im2
  let im1_sum := uf bs im1
  let im2_sum := uf bs im2
  let im1_sq_sum := uf bs im1_sq
  let im2_sq_sum := uf bs im2_sq
  let im12_sum := uf bs im12
  let im12_sum_mul := im1_sum * im2_sum
  let im12_sq_sum_mul := im1_sum * im1_sum + im2_sum * im2_sum
  let numerator := ((im12_sum.scale N - im12_sum_mul) * im12_sum_mul).scale 4
  let denominator1 := (im1_sq_sum + im2_sq_sum).scale N - im12_sq_sum_mul
  let denominator := denominator1 * im12_sq_sum_mul
  ⟨numerator, denominator1, denominator, im12_sum_mul, im12_sq_sum_mul⟩

/-- Source `UIQI.uiqi_single_channel`, quality-map assembly: start from
all-ones, then the two sequential masked assignments
`q_map[denom1 == 0 and ssum != 0] = 2*cross/ssum` followed by
`q_map[denominator != 0] = numerator/denominator` (the second assignment
overwrites the first where both masks hold). -/
def UIQI.qmap (uf : UFilter) (bs : ℕ) (im1 im2 : MatF) : MatF :=
  let t := UIQI.terms uf bs im1 im2
  let q0 : MatF := ⟨t.denominator.h, t.denominator.w, fun _ _ => 1⟩
  let q1 : MatF := ⟨q0.h, q0.w, fun i j =>
    if t.denominator1.f i j = 0 ∧ t.ssum.f i j ≠ 0 then
      2 * t.cross.f i j / t.ssum.f i j
    else q0.f i j⟩
  let q2 : MatF := ⟨q1.h, q1.w, fun i j =>
    if t.denominator.f i j ≠ 0 then t.numerator.f i j / t.denominator.f i j
    else q1.f i j⟩
  q2

/-- The Python slice `a[s:-s, s:-s]`: for `s = 0` the degenerate slice
`a[0:0, 0:0]` is empty (since `-0 == 0`), otherwise it removes `s` rows
and columns from every border. -/
def pySliceCrop (s : ℕ) (a : MatF) : MatF :=
  if s = 0 then ⟨0, 0, a.f⟩
  else ⟨a.h - 2 * s, a.w - 2 * s, fun i j => a.f (i + s) (j + s)⟩

/-- Source `UIQI.uiqi_single_channel`: the mean of the quality map after
cropping `int(block_size / 2)` from every border. -/
def UIQI.uiqi_single_channel (uf : UFilter) (cfg : UIQI) (im1 im2 : MatF) :
    Option ℚ :=
  let s := cfg.block_size / 2
  (pySliceCrop s (UIQI.qmap uf cfg.block_size im1 im2)).mean

/-- Source `UIQI.analyze`: float views, channel count with truthiness
fallback, per-channel UIQI, mean over channels. -/
def UIQI.analyze (uf : UFilter) (cfg : UIQI) (p : ImagePair) :
    Except String (Option ℚ) :=
  match p.get 0 with
  | .error e => .error e
  | .ok img0 =>
    let im := p.as_floats
    let ch_num := pyOrNat cfg.channels_num img0.channels_num
    match chanLoop (UIQI.uiqi_single_channel uf cfg) im.1 im.2 ch_num with
    | .error e => .error e
    | .ok results => .ok (npMeanOpt results)

/-- Source class `VIFP`: configuration fields bound by `__init__`
(`channels_num` optional override, `sigma` visual-noise variance,
default 2.0). -/
structure VIFP where
  channels_num : Option ℕ
  sigma : ℚ

/-- The VIFP defaults. -/
def vifpDefault : VIFP := ⟨none, 2⟩

/-- Abstract `scipy.ndimage.gaussian_filter(im, sd)` as called by VIFP:
an arbitrary collaborator function of the standard deviation and image. -/
abbrev G1Filter := ℚ → MatF → MatF

/-- The `eps = 1e-10` constant of `VIFP.vifp_single_channel`, modelled as
the exact rational it denotes. -/
def VIFP.eps : ℚ := 1 / 10 ^ 10

/-- Source `VIFP.vifp_single_channel`, lines 256-271: the in-place
degeneracy guards of one scale, applied in source order to the raw local
variances/covariance. Returns the final `(g, sv_sq, sigma1_sq)`. Each
masked assignment is pointwise, so it is modelled entrywise on the shape
of `sigma1_sq`. -/
def VIFP.guardStage (s1raw s2raw s12 : MatF) : MatF × MatF × MatF :=
  let eps := VIFP.eps
  let sigma1_sq : MatF := ⟨s1raw.h, s1raw.w, fun i j =>
    if s1raw.f i j < 0 then 0 else s1raw.f i j⟩
  let sigma2_sq : MatF := ⟨s2raw.h, s2raw.w, fun i j =>
    if s2raw.f i j < 0 then 0 else s2raw.f i j⟩
  let g := s12 / sigma1_sq.addC eps
  let sv_sq := sigma2_sq - g * s12
  let g1 : MatF := ⟨g.h, g.w, fun i j =>
    if sigma1_sq.f i j < eps then 0 else g.f i j⟩
  let sv1 : MatF := ⟨sv_sq.h, sv_sq.w, fun i j =>
    if sigma1_sq.f i j < eps then sigma2_sq.f i j else sv_sq.f i j⟩
  let sigma1b : MatF := ⟨sigma1_sq.h, sigma1_sq.w, fun i j =>
    if sigma1_sq.f i j < eps then 0 else sigma1_sq.f i j⟩
  let g2 : MatF := ⟨g1.h, g1.w, fun i j =>
    if sigma2_sq.f i j < eps then 0 else g1.f i j⟩
  let sv2 : MatF := ⟨sv1.h, sv1.w, fun i j =>
    if sigma2_sq.f i j < eps then 0 else sv1.f i j⟩
  let sv3 : MatF := ⟨sv2.h, sv2.w, fun i j =>
    if g2.f i j < 0 then sigma2_sq.f i j else sv2.f i j⟩
  let g3 : MatF := ⟨g2.h, g2.w, fun i j =>
    if g2.f i j < 0 then 0 else g2.f i j⟩
  let sv4 : MatF := ⟨sv3.h, sv3.w, fun i j =>
    if sv3.f i j ≤ eps then eps else sv3.f i j⟩
  (g3, sv4, sigma1b)

/-- One scale iteration of `VIFP.vifp_single_channel`: optional extra
low-pass at scales above 1, local Gaussian statistics, the guard stage,
and the two log10 accumulations. State is `(im1, im2, numerator,
denominator)`. -/
noncomputable def VIFP.scaleStep (g4 : G1Filter) (vs : ℚ)
    (st : MatF × MatF × ℝ × ℝ) (scale : ℕ) : MatF × MatF × ℝ × ℝ :=
  let N : ℚ := 2 ^ (4 - scale + 1) + 1
  let sd := N / 5
  let im1 := if 1 < scale then g4 sd st.1 else st.1
  let im2 := if 1 < scale then g4 sd st.2.1 else st.2.1
  let mu1 := g4 sd im1
  let mu2 := g4 sd im2
  let sigma1_sq := g4 sd (im1 * im1) - mu1 * mu1
  let sigma2_sq := g4 sd (im2 * im2) - mu2 * mu2
  let sigma12 := g4 sd (im1 * im2) - mu1 * mu2
  let gd := VIFP.guardStage sigma1_sq sigma2_sq sigma12
  let g := gd.1
  let sv_sq := gd.2.1
  let s1 := gd.2.2
  let numInc : ℝ := ∑ i in Finset.range g.h, ∑ j in Finset.range g.w,
    Real.logb 10 (((1 + g.f i j ^ 2 * (s1.f i j / (sv_sq.f i j + vs)) : ℚ) : ℝ))
  let denInc : ℝ := ∑ i in Finset.range s1.h, ∑ j in Finset.range s1.w,
    Real.logb 10 (((1 + s1.f i j / vs : ℚ) : ℝ))
  (im1, im2, st.2.2.1 + numInc, st.2.2.2 + denInc)

/-- Source `VIFP.vifp_single_channel`: fold the four scales, then divide
the accumulated numerator by the accumulated denominator. (A `0/0` here
would be a numpy NaN warning, not an exception; that degenerate value is
not tracked since no claim depends on it.) -/
noncomputable def VIFP.vifp_single_channel (g4 : G1Filter) (cfg : VIFP)
    (im1 im2 : MatF) : ℝ :=
  let st := [1, 2, 3, 4].foldl (VIFP.scaleStep g4 cfg.sigma) (im1, im2, 0, 0)
  st.2.2.1 / st.2.2.2

/-- Arithmetic mean of a 1-D real results array (`np.mean`); junk `0` on
the empty list, which the theorems exclude. -/
noncomputable def listMeanR (l : List ℝ) : ℝ := l.sum / l.length

/-- Source `VIFP.analyze`: float views, channel count with truthiness
fallback, per-channel VIF-P, then `np.mean(np.nan_to_num(results))`
(`nan_to_num` is the identity on the untracked real model; see
`vifp_single_channel`). -/
noncomputable def VIFP.analyze (g4 : G1Filter) (cfg : VIFP) (p : ImagePair) :
    Except String ℝ :=
  match p.get 0 with
  | .error e => .error e
  | .ok img0 =>
    let im := p.as_floats
    let ch_num := pyOrNat cfg.channels_num img0.channels_num
    match chanLoop (VIFP.vifp_single_channel g4 cfg) im.1 im.2 ch_num with
    | .error e => .error e
    | .ok results => .ok (listMeanR results)

/-- Source class `SAM`: the single `to_degrees` flag (default true). -/
structure SAM where
  convert_to_degrees : Bool

/-- The per-pixel channel-vector dot product `np.sum(im1 * im2, axis=2)`
at pixel `(i, j)` (elementwise product, then sum along the channel
axis). -/
def SAM.dot (cdim : ℕ) (f1 f2 : ℕ → ℕ → ℕ → ℚ) (i j : ℕ) : ℚ :=
  ∑ ch in Finset.range cdim, f1 i j ch * f2 i j ch

/-- The per-pixel channel-vector Euclidean norm
`np.linalg.norm(im, axis=2)` at pixel `(i, j)`. -/
noncomputable def SAM.norm2 (cdim : ℕ) (f : ℕ → ℕ → ℕ → ℚ) (i j : ℕ) : ℝ :=
  Real.sqrt (∑ ch in Finset.range cdim, ((f i j ch : ℝ)) ^ 2)

/-- Source `SAM.analyze`, spectral-angle computation on the float views,
before the optional degree conversion. `np.sum(im1*im2, axis=2)` raises
AxisError on a 2-D array, so grayscale input is an error; entries of the
angle map are `none` where numpy produces NaN (a `0/0` ratio at a
zero-vector pixel). A `x/0` ratio with `x ≠ 0` is numpy `±inf`, which
`np.clip` turns into `±1`; that branch is kept for faithfulness although
it is unreachable (a zero norm product forces a zero dot product). -/
noncomputable def SAM.anglesRad (im1 im2 : Buf) :
    Except String (ℕ × ℕ × (ℕ → ℕ → Option ℝ)) :=
  match im1, im2 with
  | .color h w c f1, .color _ _ c2 f2 =>
    let num : ℕ → ℕ → ℚ := SAM.dot c f1 f2
    let den : ℕ → ℕ → ℝ := fun i j => SAM.norm2 c f1 i j * SAM.norm2 c2 f2 i j
    let val : ℕ → ℕ → Option ℝ := fun i j =>
      if den i j = 0 then
        if (num i j : ℝ) = 0 then none
        else some (if 0 < (num i j : ℝ) then 1 else -1)
      else some (max (-1) (min 1 ((num i j : ℝ) / den i j)))
    .ok (h, w, fun i j => (val i j).map Real.arccos)
  | _, _ => .error "axis 2 is out of bounds"

/-- Source `SAM.analyze`: per-pixel spectral angles, optional conversion
to degrees, then `np.mean(np.nan_to_num(sam_angles))` (NaN pixels count
as 0). `none` is the NaN mean of an empty map. -/
noncomputable def SAM.analyze (cfg : SAM) (p : ImagePair) :
    Except String (Option ℝ) :=
  let im := p.as_floats
  match SAM.anglesRad im.1 im.2 with
  | .error e => .error e
  | .ok (h, w, ang) =>
    let ang2 : ℕ → ℕ → Option ℝ :=
      if cfg.convert_to_degrees then
        fun i j => (ang i j).map (fun x => x * (180 / Real.pi))
      else ang
    if h = 0 ∨ w = 0 then .ok none
    else .ok (some ((∑ i in Finset.range h, ∑ j in Finset.range w,
      (ang2 i j).getD 0) / ((h : ℝ) * (w : ℝ))))

/-!
Heap model for the mutation claim. A numpy array that the source code
mutates in place (or an image buffer, the object whose preservation is at
stake) lives in an explicit heap; arrays that are only ever read are
passed by value. Every in-place assignment of the source becomes a
`writeCell`; every array creation becomes an `allocCell`. `as_float`
copies when dtype promotion is needed and aliases the stored buffer when
the buffer already has a float dtype (`np.asarray` semantics), so the
no-mutation theorem also covers the aliasing case.
-/

/-- A heap cell: an image buffer with its dtype flag, or one of the
mutable intermediate arrays of the metrics. -/
inductive Cell where
  | img (isFloat : Bool) (b : Buf)
  | arrQ (m : MatF)
  | vecQ (n : ℕ) (f : ℕ → Option ℚ)
  | arrR (hh ww : ℕ) (f : ℕ → ℕ → Option ℝ)
  | vecR (n : ℕ) (f : ℕ → ℝ)

/-- The heap: cells addressed by allocation order. -/
abbrev Heap := List Cell

/-- The state-error monad threading the heap: Python exceptions plus
in-place array updates. -/
def M (α : Type) := Heap → Except String (α × Heap)

/-- Monadic return for `M`. -/
def M.pureM (a : α) : M α := fun h => .ok (a, h)

/-- Monadic bind for `M`. -/
def M.bindM (m : M α) (k : α → M β) : M β := fun h =>
  match m h with
  | .error e => .error e
  | .ok (a, h1) => k a h1

instance : Monad M where
  pure := M.pureM
  bind := M.bindM

/-- Raising a Python exception. -/
def M.throwM (e : String) : M α := fun _ => .error e

/-- Dereference a heap id. -/
def readCell (i : ℕ) : M Cell := fun h =>
  match h[i]? with
  | some c => .ok (c, h)
  | none => .error "invalid reference"

/-- Allocate a fresh array, returning its id. -/
def allocCell (c : Cell) : M ℕ := fun h => .ok (h.length, h ++ [c])

/-- In-place overwrite of the array at id `i`. -/
def writeCell (i : ℕ) (c : Cell) : M Unit := fun h => .ok ((), h.set i c)

/-- Run a pure `Except` computation (a Python expression that may raise
but does not touch the heap). -/
def liftEx (e : Except String α) : M α := fun h =>
  match e with
  | .ok a => .ok (a, h)
  | .error s => .error s

/-- Sequential loop over a list (`for ch in range(n)`). -/
def forList (l : List ℕ) (body : ℕ → M Unit) : M Unit :=
  match l with
  | [] => pure ()
  | x :: xs => M.bindM (body x) (fun _ => forList xs body)

/-- Sequential monadic fold (the VIF-P scale loop with carried state). -/
def foldListM (l : List ℕ) (f : σ → ℕ → M σ) (s : σ) : M σ :=
  match l with
  | [] => pure s
  | x :: xs => M.bindM (f s x) (fun s1 => foldListM xs f s1)

/-- An `Image` as stored on the heap: the id of its pixel buffer. -/
structure HImage where
  id : ℕ

/-- An `ImagePair` over heap-resident images. -/
structure HPair where
  ref : HImage
  A : HImage

/-- Heap-level `ImagePair.__getitem__`. -/
def HPair.get (p : HPair) (k : ℕ) : Except String HImage :=
  if k = 0 then .ok p.ref
  else if k = 1 then .ok p.A
  else .error "IndexError"

/-- Read an image buffer cell (dtype flag and buffer). -/
def readImg (i : ℕ) : M (Bool × Buf) :=
  M.bindM (readCell i) fun c =>
    match c with
    | .img fl b => pure (fl, b)
    | _ => M.throwM "not an image buffer"

/-- Heap-level `Image.as_float`: `np.asarray(im, dtype=float_type)`
copies when the stored dtype is integral and aliases the stored buffer
when it is already a float type. -/
def as_floatM (img : HImage) : M ℕ :=
  M.bindM (readImg img.id) fun fb =>
    if fb.1 then pure img.id else allocCell (.img true fb.2)

/-- Heap-level `ImagePair.as_floats`. -/
def as_floatsM (p : HPair) : M (ℕ × ℕ) := do
  let i1 ← as_floatM p.ref
  let i2 ← as_floatM p.A
  pure (i1, i2)

/-- Heap-level `MSE.analyze`: reads the two float views and computes the
mean squared difference; no in-place writes. -/
def MSE.analyzeM (p : HPair) : M ℚ := do
  let ids ← as_floatsM p
  let b1 ← readImg ids.1
  let b2 ← readImg ids.2
  pure (listMean (List.zipWith (fun a b => (a - b) ^ 2) b1.2.vals b2.2.vals))

/-- Heap-level `PSNR.analyze`: max of the raw reference buffer, then the
MSE call, then the pure formula. -/
noncomputable def PSNR.analyzeM (p : HPair) : M EReal := do
  let img0 ← liftEx (p.get 0)
  let b0 ← readImg img0.id
  match b0.2.maxVal with
  | none => M.throwM "zero-size array reduction"
  | some dmax => do
    let err ← MSE.analyzeM p
    pure (if err = 0 then ⊤ else 20 * npLog10 dmax - 10 * npLog10 err)

/-- Write one entry of a 1-D results array (`results[ch] = value`). -/
def setVecQ (rid ch : ℕ) (r : Option ℚ) : M Unit :=
  M.bindM (readCell rid) fun c =>
    match c with
    | .vecQ n f => writeCell rid (.vecQ n (fun k => if k = ch then r else f k))
    | _ => M.throwM "not a results array"

/-- Read a 1-D results array as a list of its entries. -/
def readVecQ (rid : ℕ) : M (List (Option ℚ)) :=
  M.bindM (readCell rid) fun c =>
    match c with
    | .vecQ n f => pure ((List.range n).map f)
    | _ => M.throwM "not a results array"

/-- Heap-level `SSIM.analyze`: allocate `np.empty(ch_num)`, loop over the
channels writing each per-channel MSSIM into it, then average. -/
def SSIM.analyzeM (gf : GFilter) (cfg : SSIM) (p : HPair) : M (Option ℚ) := do
  let ids ← as_floatsM p
  let b1 ← readImg ids.1
  let b2 ← readImg ids.2
  let img0 ← liftEx (p.get 0)
  let b0 ← readImg img0.id
  let ch_num := pyOrNat cfg.channels_num b0.2.channels_num
  let rid ← allocCell (.vecQ ch_num (fun _ => some 0))
  M.bindM
    (forList (List.range ch_num) (fun ch => do
      let c1 ← liftEx (b1.2.sliceChannel ch)
      let c2 ← liftEx (b2.2.sliceChannel ch)
      setVecQ rid ch (SSIM.mssim_single_channel gf cfg c1 c2)))
    (fun _ => do
      let results ← readVecQ rid
      pure (npMeanOpt results))

/-- Read a mutable 2-D array cell. -/
def readArrQ (i : ℕ) : M MatF :=
  M.bindM (readCell i) fun c =>
    match c with
    | .arrQ m => pure m
    | _ => M.throwM "not a 2-D array"

/-- Heap-level `UIQI.uiqi_single_channel`: `np.ones` allocation followed
by the two in-place masked assignments, then the cropped mean. -/
def UIQI.uiqi_single_channelM (uf : UFilter) (cfg : UIQI) (im1 im2 : MatF) :
    M (Option ℚ) := do
  let t := UIQI.terms uf cfg.block_size im1 im2
  let qid ← allocCell (.arrQ ⟨t.denominator.h, t.denominator.w, fun _ _ => 1⟩)
  let q0 ← readArrQ qid
  writeCell qid (.arrQ ⟨q0.h, q0.w, fun i j =>
    if t.denominator1.f i j = 0 ∧ t.ssum.f i j ≠ 0 then
      2 * t.cross.f i j / t.ssum.f i j
    else q0.f i j⟩)
  let q1 ← readArrQ qid
  writeCell qid (.arrQ ⟨q1.h, q1.w, fun i j =>
    if t.denominator.f i j ≠ 0 then t.numerator.f i j / t.denominator.f i j
    else q1.f i j⟩)
  let q2 ← readArrQ qid
  pure (pySliceCrop (cfg.block_size / 2) q2).mean

/-- Heap-level `UIQI.analyze`. -/
def UIQI.analyzeM (uf : UFilter) (cfg : UIQI) (p : HPair) : M (Option ℚ) := do
  let ids ← as_floatsM p
  let b1 ← readImg ids.1
  let b2 ← readImg ids.2
  let img0 ← liftEx (p.get 0)
  let b0 ← readImg img0.id
  let ch_num := pyOrNat cfg.channels_num b0.2.channels_num
  let rid ← allocCell (.vecQ ch_num (fun _ => some 0))
  M.bindM
    (forList (List.range ch_num) (fun ch => do
      let c1 ← liftEx (b1.2.sliceChannel ch)
      let c2 ← liftEx (b2.2.sliceChannel ch)
      let r ← UIQI.uiqi_single_channelM uf cfg c1 c2
      setVecQ rid ch r))
    (fun _ => do
      let results ← readVecQ rid
      pure (npMeanOpt results))

/-- One scale iteration of heap-level `VIFP.vifp_single_channel`: the
local statistics are fresh allocations, and source lines 256-271 are the
in-place masked assignments, one `writeCell` per source line, each mask
re-read from the current heap state exactly as numpy re-evaluates it. -/
noncomputable def VIFP.scaleStepM (g4 : G1Filter) (vs : ℚ)
    (st : MatF × MatF × ℝ × ℝ) (scale : ℕ) : M (MatF × MatF × ℝ × ℝ) := do
  let eps := VIFP.eps
  let N : ℚ := 2 ^ (4 - scale + 1) + 1
  let sd := N / 5
  let im1 := if 1 < scale then g4 sd st.1 else st.1
  let im2 := if 1 < scale then g4 sd st.2.1 else st.2.1
  let mu1 := g4 sd im1
  let mu2 := g4 sd im2
  let sigma12 := g4 sd (im1 * im2) - mu1 * mu2
  let s1id ← allocCell (.arrQ (g4 sd (im1 * im1) - mu1 * mu1))
  let s2id ← allocCell (.arrQ (g4 sd (im2 * im2) - mu2 * mu2))
  let s1a ← readArrQ s1id
  writeCell s1id (.arrQ ⟨s1a.h, s1a.w, fun i j =>
    if s1a.f i j < 0 then 0 else s1a.f i j⟩)
  let s2a ← readArrQ s2id
  writeCell s2id (.arrQ ⟨s2a.h, s2a.w, fun i j =>
    if s2a.f i j < 0 then 0 else s2a.f i j⟩)
  let s1b ← readArrQ s1id
  let s2b ← readArrQ s2id
  let gid ← allocCell (.arrQ (sigma12 / s1b.addC eps))
  let ga ← readArrQ gid
  let svid ← allocCell (.arrQ (s2b - ga * sigma12))
  let g0 ← readArrQ gid
  let s1c ← readArrQ s1id
  writeCell gid (.arrQ ⟨g0.h, g0.w, fun i j =>
    if s1c.f i j < eps then 0 else g0.f i j⟩)
  let sv0 ← readArrQ svid
  let s2c ← readArrQ s2id
  writeCell svid (.arrQ ⟨sv0.h, sv0.w, fun i j =>
    if s1c.f i j < eps then s2c.f i j else sv0.f i j⟩)
  writeCell s1id (.arrQ ⟨s1c.h, s1c.w, fun i j =>
    if s1c.f i j < eps then 0 else s1c.f i j⟩)
  let g1 ← readArrQ gid
  let s2d ← readArrQ s2id
  writeCell gid (.arrQ ⟨g1.h, g1.w, fun i j =>
    if s2d.f i j < eps then 0 else g1.f i j⟩)
  let sv1 ← readArrQ svid
  writeCell svid (.arrQ ⟨sv1.h, sv1.w, fun i j =>
    if s2d.f i j < eps then 0 else sv1.f i j⟩)
  let sv2 ← readArrQ svid
  let g2 ← readArrQ gid
  writeCell svid (.arrQ ⟨sv2.h, sv2.w, fun i j =>
    if g2.f i j < 0 then s2d.f i j else sv2.f i j⟩)
  writeCell gid (.arrQ ⟨g2.h, g2.w, fun i j =>
    if g2.f i j < 0 then 0 else g2.f i j⟩)
  let sv3 ← readArrQ svid
  writeCell svid (.arrQ ⟨sv3.h, sv3.w, fun i j =>
    if sv3.f i j ≤ eps then eps else sv3.f i j⟩)
  let g ← readArrQ gid
  let sv ← readArrQ svid
  let s1 ← readArrQ s1id
  let numInc : ℝ := ∑ i in Finset.range g.h, ∑ j in Finset.range g.w,
    Real.logb 10 (((1 + g.f i j ^ 2 * (s1.f i j / (sv.f i j + vs)) : ℚ) : ℝ))
  let denInc : ℝ := ∑ i in Finset.range s1.h, ∑ j in Finset.range s1.w,
    Real.logb 10 (((1 + s1.f i j / vs : ℚ) : ℝ))
  pure (im1, im2, st.2.2.1 + numInc, st.2.2.2 + denInc)

/-- Heap-level `VIFP.vifp_single_channel`. -/
noncomputable def VIFP.vifp_single_channelM (g4 : G1Filter) (cfg : VIFP)
    (im1 im2 : MatF) : M ℝ := do
  let st ← foldListM [1, 2, 3, 4] (VIFP.scaleStepM g4 cfg.sigma) (im1, im2, 0, 0)
  pure (st.2.2.1 / st.2.2.2)

/-- Write one entry of a 1-D real results array. -/
def setVecR (rid ch : ℕ) (r : ℝ) : M Unit :=
  M.bindM (readCell rid) fun c =>
    match c with
    | .vecR n f => writeCell rid (.vecR n (fun k => if k = ch then r else f k))
    | _ => M.throwM "not a results array"

/-- Read a 1-D real results array as a list of its entries. -/
def readVecR (rid : ℕ) : M (List ℝ) :=
  M.bindM (readCell rid) fun c =>
    match c with
    | .vecR n f => pure ((List.range n).map f)
    | _ => M.throwM "not a results array"

/-- Heap-level `VIFP.analyze`. -/
noncomputable def VIFP.analyzeM (g4 : G1Filter) (cfg : VIFP) (p : HPair) :
    M ℝ := do
  let ids ← as_floatsM p
  let b1 ← readImg ids.1
  let b2 ← readImg ids.2
  let img0 ← liftEx (p.get 0)
  let b0 ← readImg img0.id
  let ch_num := pyOrNat cfg.channels_num b0.2.channels_num
  let rid ← allocCell (.vecR ch_num (fun _ => 0))
  M.bindM
    (forList (List.range ch_num) (fun ch => do
      let c1 ← liftEx (b1.2.sliceChannel ch)
      let c2 ← liftEx (b2.2.sliceChannel ch)
      let r ← VIFP.vifp_single_channelM g4 cfg c1 c2
      setVecR rid ch r))
    (fun _ => do
      let results ← readVecR rid
      pure (listMeanR results))

/-- Read a mutable 2-D real array cell. -/
def readArrR (i : ℕ) : M (ℕ × ℕ × (ℕ → ℕ → Option ℝ)) :=
  M.bindM (readCell i) fun c =>
    match c with
    | .arrR hh ww f => pure (hh, ww, f)
    | _ => M.throwM "not a real array"

/-- Heap-level `SAM.analyze`: the spectral-angle map is a fresh array,
`sam_angles *= 180 / np.pi` is its single in-place update, and the final
mean runs `np.nan_to_num` first. -/
noncomputable def SAM.analyzeM (cfg : SAM) (p : HPair) : M (Option ℝ) := do
  let ids ← as_floatsM p
  let b1 ← readImg ids.1
  let b2 ← readImg ids.2
  let hwang ← liftEx (SAM.anglesRad b1.2 b2.2)
  let aid ← allocCell (.arrR hwang.1 hwang.2.1 hwang.2.2)
  M.bindM
    (if cfg.convert_to_degrees then do
      let a ← readArrR aid
      writeCell aid (.arrR a.1 a.2.1 (fun i j =>
        (a.2.2 i j).map (fun x => x * (180 / Real.pi))))
    else pure ())
    (fun _ => do
      let a ← readArrR aid
      if a.1 = 0 ∨ a.2.1 = 0 then pure none
      else pure (some ((∑ i in Finset.range a.1, ∑ j in Finset.range a.2.1,
        (a.2.2 i j).getD 0) / ((a.1 : ℝ) * (a.2.1 : ℝ)))))

/-- One of the six metric operations, with its construction-time
configuration. -/
inductive MetricOp where
  | mse
  | psnr
  | ssim (cfg : SSIM)
  | uiqi (cfg : UIQI)
  | vifp (cfg : VIFP)
  | sam (cfg : SAM)

/-- The scalar result of a metric (numeric type depends on the metric). -/
inductive MetricResult where
  | q (x : ℚ)
  | e (x : EReal)
  | oq (x : Option ℚ)
  | orl (x : Option ℝ)
  | r (x : ℝ)

/-- Dispatch a metric operation on a heap-resident image pair. -/
noncomputable def runMetricM (gf : GFilter) (g4 : G1Filter) (uf : UFilter) :
    MetricOp → HPair → M MetricResult
  | .mse, p => M.bindM (MSE.analyzeM p) (fun x => pure (.q x))
  | .psnr, p => M.bindM (PSNR.analyzeM p) (fun x => pure (.e x))
  | .ssim cfg, p => M.bindM (SSIM.analyzeM gf cfg p) (fun x => pure (.oq x))
  | .uiqi cfg, p => M.bindM (UIQI.analyzeM uf cfg p) (fun x => pure (.oq x))
  | .vifp cfg, p => M.bindM (VIFP.analyzeM g4 cfg p) (fun x => pure (.r x))
  | .sam cfg, p => M.bindM (SAM.analyzeM cfg p) (fun x => pure (.orl x))

/-- The final heap agrees with the initial heap on every id below `n`
(and has not shrunk below `n`). -/
def HeapExt (n : ℕ) (h h' : Heap) : Prop :=
  n ≤ h'.length ∧ ∀ i, i < n → h'[i]? = h[i]?

/-- A computation never overwrites any heap cell that existed before it
started (ids below `n`): every successful run only extends and/or writes
fresh cells. -/
def SafeFrom (n : ℕ) (m : M α) : Prop :=
  ∀ h a h', n ≤ h.length → m h = .ok (a, h') → HeapExt n h h'

/-- Identity instantiation of the abstract SSIM Gaussian filter, used to
evaluate the development at concrete inputs (any filter would do: the
theorems quantify over the filter or constrain only its shape). -/
def idGFilter : GFilter := fun _ _ m => m

/-- Identity instantiation of the abstract VIF-P Gaussian filter. -/
def idG1Filter : G1Filter := fun _ m => m

/-- Identity instantiation of the abstract UIQI uniform filter. -/
def idUFilter : UFilter := fun _ m => m

/-- A concrete two-image heap for evaluating the heap-level metrics. -/
def witnessHeap : Heap :=
  [Cell.img false (Buf.gray 1 1 fun _ _ => 0),
   Cell.img false (Buf.gray 1 1 fun _ _ => 7)]

/-- The pair of the two images of `witnessHeap`. -/
def witnessPair : HPair := ⟨⟨0⟩, ⟨1⟩⟩

theorem heapExt_rfl {n : ℕ} {h : Heap} (hn : n ≤ h.length) : HeapExt n h h :=
  ⟨hn, fun _ _ => rfl⟩

theorem heapExt_trans {n : ℕ} {h h1 h2 : Heap} (a : HeapExt n h h1)
    (b : HeapExt n h1 h2) : HeapExt n h h2 :=
  ⟨b.1, fun i hi => (b.2 i hi).trans (a.2 i hi)⟩

theorem safe_pureM {n : ℕ} {a : α} : SafeFrom n (M.pureM a) := by
  intro h x h' hn hrun
  simp only [M.pureM, Except.ok.injEq, Prod.mk.injEq] at hrun
  obtain ⟨-, rfl⟩ := hrun
  exact heapExt_rfl hn

theorem safe_throwM {n : ℕ} {e : String} : SafeFrom n (M.throwM (α := α) e) := by
  intro h x h' _ hrun
  exact Except.noConfusion hrun

theorem safe_readCell {n i : ℕ} : SafeFrom n (readCell i) := by
  intro h a h' hn hrun
  unfold readCell at hrun
  cases hg : h[i]? with
  | some c =>
    rw [hg] at hrun
    simp only [Except.ok.injEq, Prod.mk.injEq] at hrun
    obtain ⟨-, rfl⟩ := hrun
    exact heapExt_rfl hn
  | none => rw [hg] at hrun; exact Except.noConfusion hrun

theorem safe_allocCell {n : ℕ} {c : Cell} : SafeFrom n (allocCell c) := by
  intro h a h' hn hrun
  unfold allocCell at hrun
  simp only [Except.ok.injEq, Prod.mk.injEq] at hrun
  obtain ⟨-, rfl⟩ := hrun
  refine ⟨by simp; omega, fun i hi => ?_⟩
  exact List.getElem?_append_left (lt_of_lt_of_le hi hn)

theorem safe_writeCell {n i : ℕ} {c : Cell} (hi : n ≤ i) :
    SafeFrom n (writeCell i c) := by
  intro h a h' hn hrun
  unfold writeCell at hrun
  simp only [Except.ok.injEq, Prod.mk.injEq] at hrun
  obtain ⟨-, rfl⟩ := hrun
  refine ⟨by simp; omega, fun k hk => ?_⟩
  exact List.getElem?_set_ne (by omega)

theorem safe_liftEx {n : ℕ} {e : Except String α} : SafeFrom n (liftEx e) := by
  intro h a h' hn hrun
  unfold liftEx at hrun
  cases e with
  | ok x =>
    simp only [Except.ok.injEq, Prod.mk.injEq] at hrun
    obtain ⟨-, rfl⟩ := hrun
    exact heapExt_rfl hn
  | error s => exact Except.noConfusion hrun

theorem safe_bindM {n : ℕ} {m : M α} {k : α → M β} (hm : SafeFrom n m)
    (hk : ∀ a, SafeFrom n (k a)) : SafeFrom n (M.bindM m k) := by
  intro h a h' hn hrun
  unfold M.bindM at hrun
  cases hm1 : m h with
  | error e => rw [hm1] at hrun; exact Except.noConfusion hrun
  | ok x =>
    rw [hm1] at hrun
    obtain ⟨a1, h1⟩ := x
    have e1 := hm h a1 h1 hn hm1
    have e2 := (hk a1) h1 a h' e1.1 hrun
    exact heapExt_trans e1 e2

theorem safe_bindM_alloc {n : ℕ} {c : Cell} {k : ℕ → M β}
    (hk : ∀ idx, n ≤ idx → SafeFrom n (k idx)) :
    SafeFrom n (M.bindM (allocCell c) k) := by
  intro h a h' hn hrun
  unfold M.bindM allocCell at hrun
  have e1 : HeapExt n h (h ++ [c]) :=
    ⟨by simp; omega, fun i hi => List.getElem?_append_left (lt_of_lt_of_le hi hn)⟩
  have e2 := hk h.length hn (h ++ [c]) a h' e1.1 hrun
  exact heapExt_trans e1 e2

theorem safe_forList {n : ℕ} {l : List ℕ} {body : ℕ → M Unit}
    (hb : ∀ x, SafeFrom n (body x)) : SafeFrom n (forList l body) := by
  induction l with
  | nil => exact safe_pureM
  | cons x xs ih => exact safe_bindM (hb x) (fun _ => ih)

theorem safe_foldListM {n : ℕ} {l : List ℕ} {f : σ → ℕ → M σ}
    (hf : ∀ s x, SafeFrom n (f s x)) : ∀ s, SafeFrom n (foldListM l f s) := by
  induction l with
  | nil => intro s; exact safe_pureM
  | cons x xs ih => intro s; exact safe_bindM (hf s x) (fun s1 => ih s1)

theorem safe_readImg {n i : ℕ} : SafeFrom n (readImg i) := by
  unfold readImg
  apply safe_bindM safe_readCell
  intro c
  cases c
  case img fl b => exact safe_pureM
  all_goals exact safe_throwM

theorem safe_as_floatM {n : ℕ} {img : HImage} : SafeFrom n (as_floatM img) := by
  unfold as_floatM
  apply safe_bindM safe_readImg
  intro fb
  by_cases hf : fb.1 <;> simp only [hf, if_true, if_false]
  · exact safe_pureM
  · exact safe_allocCell

theorem safe_as_floatsM {n : ℕ} {p : HPair} : SafeFrom n (as_floatsM p) := by
  unfold as_floatsM
  apply safe_bindM safe_as_floatM
  intro i1
  apply safe_bindM safe_as_floatM
  intro i2
  exact safe_pureM

theorem safe_mseM {n : ℕ} {p : HPair} : SafeFrom n (MSE.analyzeM p) := by
  unfold MSE.analyzeM
  apply safe_bindM safe_as_floatsM
  intro ids
  apply safe_bindM safe_readImg
  intro b1
  apply safe_bindM safe_readImg
  intro b2
  exact safe_pureM

theorem safe_psnrM {n : ℕ} {p : HPair} : SafeFrom n (PSNR.analyzeM p) := by
  unfold PSNR.analyzeM
  apply safe_bindM safe_liftEx
  intro img0
  apply safe_bindM safe_readImg
  intro b0
  cases b0.2.maxVal with
  | none => exact safe_throwM
  | some dmax =>
    apply safe_bindM safe_mseM
    intro err
    exact safe_pureM

theorem safe_setVecQ {n rid ch : ℕ} {r : Option ℚ} (hrid : n ≤ rid) :
    SafeFrom n (setVecQ rid ch r) := by
  unfold setVecQ
  apply safe_bindM safe_readCell
  intro c
  cases c
  case vecQ m f => exact safe_writeCell hrid
  all_goals exact safe_throwM

theorem safe_readVecQ {n rid : ℕ} : SafeFrom n (readVecQ rid) := by
  unfold readVecQ
  apply safe_bindM safe_readCell
  intro c
  cases c
  case vecQ m f => exact safe_pureM
  all_goals exact safe_throwM

theorem safe_setVecR {n rid ch : ℕ} {r : ℝ} (hrid : n ≤ rid) :
    SafeFrom n (setVecR rid ch r) := by
  unfold setVecR
  apply safe_bindM safe_readCell
  intro c
  cases c
  case vecR m f => exact safe_writeCell hrid
  all_goals exact safe_throwM

theorem safe_readVecR {n rid : ℕ} : SafeFrom n (readVecR rid) := by
  unfold readVecR
  apply safe_bindM safe_readCell
  intro c
  cases c
  case vecR m f => exact safe_pureM
  all_goals exact safe_throwM

theorem safe_readArrQ {n i : ℕ} : SafeFrom n (readArrQ i) := by
  unfold readArrQ
  apply safe_bindM safe_readCell
  intro c
  cases c
  case arrQ m => exact safe_pureM
  all_goals exact safe_throwM

theorem safe_readArrR {n i : ℕ} : SafeFrom n (readArrR i) := by
  unfold readArrR
  apply safe_bindM safe_readCell
  intro c
  cases c
  case arrR hh ww f => exact safe_pureM
  all_goals exact safe_throwM

theorem safe_ssimM {n : ℕ} {gf : GFilter} {cfg : SSIM} {p : HPair} :
    SafeFrom n (SSIM.analyzeM gf cfg p) := by
  unfold SSIM.analyzeM
  apply safe_bindM safe_as_floatsM
  intro ids
  apply safe_bindM safe_readImg
  intro b1
  apply safe_bindM safe_readImg
  intro b2
  apply safe_bindM safe_liftEx
  intro img0
  apply safe_bindM safe_readImg
  intro b0
  apply safe_bindM_alloc
  intro rid hrid
  apply safe_bindM
  · apply safe_forList
    intro ch
    apply safe_bindM safe_liftEx
    intro c1
    apply safe_bindM safe_liftEx
    intro c2
    exact safe_setVecQ hrid
  · intro u
    apply safe_bindM safe_readVecQ
    intro results
    exact safe_pureM

theorem safe_uiqiSingleM {n : ℕ} {uf : UFilter} {cfg : UIQI} {im1 im2 : MatF} :
    SafeFrom n (UIQI.uiqi_single_channelM uf cfg im1 im2) := by
  unfold UIQI.uiqi_single_channelM
  apply safe_bindM_alloc
  intro qid hqid
  apply safe_bindM safe_readArrQ
  intro q0
  apply safe_bindM (safe_writeCell hqid)
  intro u1
  apply safe_bindM safe_readArrQ
  intro q1
  apply safe_bindM (safe_writeCell hqid)
  intro u2
  apply safe_bindM safe_readArrQ
  intro q2
  exact safe_pureM

theorem safe_uiqiM {n : ℕ} {uf : UFilter} {cfg : UIQI} {p : HPair} :
    SafeFrom n (UIQI.analyzeM uf cfg p) := by
  unfold UIQI.analyzeM
  apply safe_bindM safe_as_floatsM
  intro ids
  apply safe_bindM safe_readImg
  intro b1
  apply safe_bindM safe_readImg
  intro b2
  apply safe_bindM safe_liftEx
  intro img0
  apply safe_bindM safe_readImg
  intro b0
  apply safe_bindM_alloc
  intro rid hrid
  apply safe_bindM
  · apply safe_forList
    intro ch
    apply safe_bindM safe_liftEx
    intro c1
    apply safe_bindM safe_liftEx
    intro c2
    apply safe_bindM safe_uiqiSingleM
    intro r
    exact safe_setVecQ hrid
  · intro u
    apply safe_bindM safe_readVecQ
    intro results
    exact safe_pureM

theorem safe_vifpStepM {n : ℕ} {g4 : G1Filter} {vs : ℚ}
    {st : MatF × MatF × ℝ × ℝ} {scale : ℕ} :
    SafeFrom n (VIFP.scaleStepM g4 vs st scale) := by
  unfold VIFP.scaleStepM
  apply safe_bindM_alloc
  intro s1id hs1
  apply safe_bindM_alloc
  intro s2id hs2
  apply safe_bindM safe_readArrQ
  intro s1a
  apply safe_bindM (safe_writeCell hs1)
  intro u1
  apply safe_bindM safe_readArrQ
  intro s2a
  apply safe_bindM (safe_writeCell hs2)
  intro u2
  apply safe_bindM safe_readArrQ
  intro s1b
  apply safe_bindM safe_readArrQ
  intro s2b
  apply safe_bindM_alloc
  intro gid hg
  apply safe_bindM safe_readArrQ
  intro ga
  apply safe_bindM_alloc
  intro svid hsv
  apply safe_bindM safe_readArrQ
  intro g0
  apply safe_bindM safe_readArrQ
  intro s1c
  apply safe_bindM (safe_writeCell hg)
  intro u3
  apply safe_bindM safe_readArrQ
  intro sv0
  apply safe_bindM safe_readArrQ
  intro s2c
  apply safe_bindM (safe_writeCell hsv)
  intro u4
  apply safe_bindM (safe_writeCell hs1)
  intro u5
  apply safe_bindM safe_readArrQ
  intro g1
  apply safe_bindM safe_readArrQ
  intro s2d
  apply safe_bindM (safe_writeCell hg)
  intro u6
  apply safe_bindM safe_readArrQ
  intro sv1
  apply safe_bindM (safe_writeCell hsv)
  intro u7
  apply safe_bindM safe_readArrQ
  intro sv2
  apply safe_bindM safe_readArrQ
  intro g2
  apply safe_bindM (safe_writeCell hsv)
  intro u8
  apply safe_bindM (safe_writeCell hg)
  intro u9
  apply safe_bindM safe_readArrQ
  intro sv3
  apply safe_bindM (safe_writeCell hsv)
  intro u10
  apply safe_bindM safe_readArrQ
  intro g
  apply safe_bindM safe_readArrQ
  intro sv
  apply safe_bindM safe_readArrQ
  intro s1
  exact safe_pureM

theorem safe_vifpSingleM {n : ℕ} {g4 : G1Filter} {cfg : VIFP} {im1 im2 : MatF} :
    SafeFrom n (VIFP.vifp_single_channelM g4 cfg im1 im2) := by
  unfold VIFP.vifp_single_channelM
  apply safe_bindM (safe_foldListM (fun s x => safe_vifpStepM) _)
  intro st
  exact safe_pureM

theorem safe_vifpM {n : ℕ} {g4 : G1Filter} {cfg : VIFP} {p : HPair} :
    SafeFrom n (VIFP.analyzeM g4 cfg p) := by
  unfold VIFP.analyzeM
  apply safe_bindM safe_as_floatsM
  intro ids
  apply safe_bindM safe_readImg
  intro b1
  apply safe_bindM safe_readImg
  intro b2
  apply safe_bindM safe_liftEx
  intro img0
  apply safe_bindM safe_readImg
  intro b0
  apply safe_bindM_alloc
  intro rid hrid
  apply safe_bindM
  · apply safe_forList
    intro ch
    apply safe_bindM safe_liftEx
    intro c1
    apply safe_bindM safe_liftEx
    intro c2
    apply safe_bindM safe_vifpSingleM
    intro r
    exact safe_setVecR hrid
  · intro u
    apply safe_bindM safe_readVecR
    intro results
    exact safe_pureM

theorem safe_samM {n : ℕ} {cfg : SAM} {p : HPair} :
    SafeFrom n (SAM.analyzeM cfg p) := by
  unfold SAM.analyzeM
  apply safe_bindM safe_as_floatsM
  intro ids
  apply safe_bindM safe_readImg
  intro b1
  apply safe_bindM safe_readImg
  intro b2
  apply safe_bindM safe_liftEx
  intro hwang
  apply safe_bindM_alloc
  intro aid haid
  apply safe_bindM
  · by_cases hd : cfg.convert_to_degrees <;> simp only [hd, if_true, if_false]
    · apply safe_bindM safe_readArrR
      intro a
      exact safe_writeCell haid
    · exact safe_pureM
  · intro u
    apply safe_bindM safe_readArrR
    intro a
    by_cases hz : a.1 = 0 ∨ a.2.1 = 0 <;> simp only [hz, if_true, if_false]
    · exact safe_pureM
    · exact safe_pureM

theorem safe_runMetricM {n : ℕ} {gf : GFilter} {g4 : G1Filter} {uf : UFilter}
    {op : MetricOp} {p : HPair} : SafeFrom n (runMetricM gf g4 uf op p) := by
  cases op with
  | mse => exact safe_bindM safe_mseM (fun x => safe_pureM)
  | psnr => exact safe_bindM safe_psnrM (fun x => safe_pureM)
  | ssim cfg => exact safe_bindM safe_ssimM (fun x => safe_pureM)
  | uiqi cfg => exact safe_bindM safe_uiqiM (fun x => safe_pureM)
  | vifp cfg => exact safe_bindM safe_vifpM (fun x => safe_pureM)
  | sam cfg => exact safe_bindM safe_samM (fun x => safe_pureM)

/-!
Helper lemmas.
-/

theorem ImagePair.get_zero (p : ImagePair) : p.get 0 = .ok p.ref := rfl

theorem Buf.vals_ne_nil {b : Buf} (hb : b.nonempty) : b.vals ≠ [] := by
  cases b with
  | gray h w f =>
    obtain ⟨hh, hw⟩ := hb
    intro hcon
    rw [Buf.vals, List.flatMap_eq_nil_iff] at hcon
    have h0 := hcon 0 (List.mem_range.mpr hh)
    simp at h0
    omega
  | color h w c f =>
    obtain ⟨hh, hw, hc⟩ := hb
    intro hcon
    rw [Buf.vals, List.flatMap_eq_nil_iff] at hcon
    have h0 := hcon 0 (List.mem_range.mpr hh)
    rw [List.flatMap_eq_nil_iff] at h0
    have h1 := h0 0 (List.mem_range.mpr hw)
    simp at h1
    omega

theorem Buf.maxVal_of_nonempty {b : Buf} (hb : b.nonempty) :
    ∃ m, b.maxVal = some m := by
  have hv := Buf.vals_ne_nil hb
  rw [Buf.maxVal]
  cases hl : b.vals with
  | nil => exact absurd hl hv
  | cons x xs => exact ⟨xs.foldl max x, rfl⟩

theorem sum_zipWith_sq_self (l : List ℚ) :
    (List.zipWith (fun a b => (a - b) ^ 2) l l).sum = 0 := by
  induction l with
  | nil => simp
  | cons x xs ih => simp [ih]

theorem mse_self (img : Image) : MSE.analyze ⟨img, img⟩ = 0 := by
  simp [MSE.analyze, ImagePair.as_floats, Image.as_float, listMean,
    sum_zipWith_sq_self]

/-!
Claim theorems.
-/

/-- C1: for every image pair (with a non-empty reference buffer, since
`ndarray.max` raises otherwise), `PSNR.analyze` returns positive infinity
when the pair's MSE is 0, and otherwise
`20*log10(dmax) - 10*log10(err)` where `err` is the MSE of the pair and
`dmax` is the maximum pixel value of the reference image's raw pixel
buffer (never the measured image's). -/
theorem psnr_inf_on_zero_mse_else_formula_with_reference_dmax
    (p : ImagePair) (hne : p.ref.im.nonempty) :
    PSNR.analyze p = .ok (if MSE.analyze p = 0 then ⊤
      else 20 * npLog10 (p.ref.im.maxVal.getD 0)
        - 10 * npLog10 (MSE.analyze p)) := by
  obtain ⟨m, hm⟩ := Buf.maxVal_of_nonempty hne
  simp [PSNR.analyze, ImagePair.get_zero, hm]

/-- Witness for C1 at a concrete pair: reference constant 3, measured
constant 1, both 1x1 grayscale. -/
theorem psnr_inf_on_zero_mse_else_formula_witness :
    (Buf.gray 1 1 fun _ _ => 3).nonempty ∧
    PSNR.analyze ⟨⟨Buf.gray 1 1 fun _ _ => 3⟩, ⟨Buf.gray 1 1 fun _ _ => 1⟩⟩ =
      .ok (if MSE.analyze ⟨⟨Buf.gray 1 1 fun _ _ => 3⟩,
          ⟨Buf.gray 1 1 fun _ _ => 1⟩⟩ = 0 then ⊤
        else 20 * npLog10 ((Buf.gray 1 1 fun _ _ => 3).maxVal.getD 0)
          - 10 * npLog10 (MSE.analyze ⟨⟨Buf.gray 1 1 fun _ _ => 3⟩,
            ⟨Buf.gray 1 1 fun _ _ => 1⟩⟩)) :=
  ⟨by decide,
    psnr_inf_on_zero_mse_else_formula_with_reference_dmax _ (by decide)⟩

/-- C2: the claim says SSIM construction must fail when `sigma = 0` or
`truncate = 0` (constraints `sigma > 0`, `truncate > 0`). The code only
checks strict negativity, contradicting its own comments (`0 < sigma`,
`0 < truncate`): `SSIM(sigma=0)` and `SSIM(truncate=0)` are accepted,
while the negative cases `SSIM(sigma=-1)` and `SSIM(K1=-0.1)` do raise at
construction. -/
theorem ssim_init_accepts_zero_sigma_and_truncate :
    SSIM.init none 0 (7/2) (1/100) (3/100) =
      .ok ⟨none, 0, 7/2, 1/100, 3/100⟩ ∧
    SSIM.init none (3/2) 0 (1/100) (3/100) =
      .ok ⟨none, 3/2, 0, 1/100, 3/100⟩ ∧
    SSIM.init none (-1) (7/2) (1/100) (3/100) =
      .error "Sigma must be positive!" ∧
    SSIM.init none (3/2) (7/2) (-1/10) (3/100) =
      .error "K1 must be positive!" := by
  refine ⟨?_, ?_, ?_, ?_⟩ <;> norm_num [SSIM.init]

/-- C7: for every (non-empty) image `I`, `MSE` of the pair `(I, I)` is
exactly 0 and `PSNR` of the same pair is positive infinity. -/
theorem mse_zero_and_psnr_inf_on_identical_images
    (img : Image) (hne : img.im.nonempty) :
    MSE.analyze ⟨img, img⟩ = 0 ∧ PSNR.analyze ⟨img, img⟩ = .ok ⊤ := by
  obtain ⟨m, hm⟩ := Buf.maxVal_of_nonempty hne
  refine ⟨mse_self img, ?_⟩
  simp [PSNR.analyze, ImagePair.get_zero, hm, mse_self]

/-- Witness for C7 at a concrete 1x1 grayscale image of value 5. -/
theorem mse_zero_and_psnr_inf_on_identical_images_witness :
    (Buf.gray 1 1 fun _ _ => 5).nonempty ∧
    (MSE.analyze ⟨⟨Buf.gray 1 1 fun _ _ => 5⟩, ⟨Buf.gray 1 1 fun _ _ => 5⟩⟩ = 0 ∧
      PSNR.analyze ⟨⟨Buf.gray 1 1 fun _ _ => 5⟩,
        ⟨Buf.gray 1 1 fun _ _ => 5⟩⟩ = .ok ⊤) :=
  ⟨by decide, mse_zero_and_psnr_inf_on_identical_images _ (by decide)⟩

/-- C10: for SSIM, UIQI and VIF-P, a channel-count override of 0 behaves
identically to no override: the `or` truthiness fallback makes `some 0`
and `none` indistinguishable, both falling back to
`image_pair[0].channels_num`. -/
theorem channels_override_zero_equals_none (gf : GFilter) (g4 : G1Filter)
    (uf : UFilter) (sigma truncate K1 K2 vsigma : ℚ) (bs : ℕ) (p : ImagePair) :
    SSIM.analyze gf ⟨some 0, sigma, truncate, K1, K2⟩ p
      = SSIM.analyze gf ⟨none, sigma, truncate, K1, K2⟩ p ∧
    UIQI.analyze uf ⟨some 0, bs⟩ p = UIQI.analyze uf ⟨none, bs⟩ p ∧
    VIFP.analyze g4 ⟨some 0, vsigma⟩ p = VIFP.analyze g4 ⟨none, vsigma⟩ p := by
  have h0 : ∀ d, pyOrNat (some 0) d = pyOrNat none d := fun _ => rfl
  have hm : SSIM.mssim_single_channel gf ⟨some 0, sigma, truncate, K1, K2⟩
      = SSIM.mssim_single_channel gf ⟨none, sigma, truncate, K1, K2⟩ := rfl
  have hu : UIQI.uiqi_single_channel uf ⟨some 0, bs⟩
      = UIQI.uiqi_single_channel uf ⟨none, bs⟩ := rfl
  have hv : VIFP.vifp_single_channel g4 ⟨some 0, vsigma⟩
      = VIFP.vifp_single_channel g4 ⟨none, vsigma⟩ := rfl
  refine ⟨?_, ?_, ?_⟩ <;>
    simp [SSIM.analyze, UIQI.analyze, VIFP.analyze, h0, hm, hu, hv]

/-- C3: the claim says every metric among MSE, PSNR, SSIM, UIQI, VIF-P
accepts a single-channel grayscale (2-D) pair without raising. MSE and
PSNR indeed do, but SSIM, UIQI and VIF-P index `im[:, :, ch]`, which
raises IndexError on a 2-D array, contradicting SSIM's own docstring
("If None, image is assumed to be grayscale"). Evaluation at a concrete
2x2 grayscale pair. -/
theorem grayscale_pair_metric_evaluation :
    MSE.analyze ⟨⟨Buf.gray 2 2 fun i j => (i : ℚ) + j⟩,
      ⟨Buf.gray 2 2 fun i j => (i : ℚ) + j⟩⟩ = 0 ∧
    PSNR.analyze ⟨⟨Buf.gray 2 2 fun i j => (i : ℚ) + j⟩,
      ⟨Buf.gray 2 2 fun i j => (i : ℚ) + j⟩⟩ = .ok ⊤ ∧
    SSIM.analyze idGFilter ssimDefault ⟨⟨Buf.gray 2 2 fun i j => (i : ℚ) + j⟩,
      ⟨Buf.gray 2 2 fun i j => (i : ℚ) + j⟩⟩ =
        .error "too many indices for array" ∧
    UIQI.analyze idUFilter uiqiDefault ⟨⟨Buf.gray 2 2 fun i j => (i : ℚ) + j⟩,
      ⟨Buf.gray 2 2 fun i j => (i : ℚ) + j⟩⟩ =
        .error "too many indices for array" ∧
    VIFP.analyze idG1Filter vifpDefault ⟨⟨Buf.gray 2 2 fun i j => (i : ℚ) + j⟩,
      ⟨Buf.gray 2 2 fun i j => (i : ℚ) + j⟩⟩ =
        .error "too many indices for array" := by
  refine ⟨?_, ?_, rfl, rfl, rfl⟩
  · exact mse_self _
  · have hm : (Buf.gray 2 2 fun i j => (i : ℚ) + j).maxVal = some 2 := by
      norm_num [Buf.maxVal, Buf.vals, List.range_succ]
    simp [PSNR.analyze, ImagePair.get_zero, hm, mse_self]

/-- C9: none of the six metrics mutates the stored pixel buffers of the
image pair: for any heap, any pair of valid image ids, any filters and
any metric operation, a successful `analyze` leaves the heap cells of
both images exactly as they were (all writes go to arrays allocated
during the call; the float views alias the buffers only when already
float-typed, and are then never written). -/
theorem metrics_do_not_mutate_image_buffers (gf : GFilter) (g4 : G1Filter)
    (uf : UFilter) (op : MetricOp) (p : HPair) (h : Heap)
    (hr : p.ref.id < h.length) (hA : p.A.id < h.length) :
    ∀ res h', runMetricM gf g4 uf op p h = .ok (res, h') →
      h'[p.ref.id]? = h[p.ref.id]? ∧ h'[p.A.id]? = h[p.A.id]? := by
  intro res h' hrun
  have e := safe_runMetricM (n := h.length) h res h' le_rfl hrun
  exact ⟨e.2 _ hr, e.2 _ hA⟩

/-- Witness for C9: the concrete two-image heap, running MSE. -/
theorem metrics_do_not_mutate_image_buffers_witness :
    witnessPair.ref.id < witnessHeap.length ∧
    witnessPair.A.id < witnessHeap.length ∧
    (∀ res h', runMetricM idGFilter idG1Filter idUFilter .mse witnessPair
        witnessHeap = .ok (res, h') →
      h'[witnessPair.ref.id]? = witnessHeap[witnessPair.ref.id]? ∧
        h'[witnessPair.A.id]? = witnessHeap[witnessPair.A.id]?) :=
  ⟨by decide, by decide,
    metrics_do_not_mutate_image_buffers idGFilter idG1Filter idUFilter .mse
      witnessPair witnessHeap (by decide) (by decide)⟩

@[simp] theorem MatF.add_f (a b : MatF) (i j : ℕ) :
    (a + b).f i j = a.f i j + b.f i j := rfl

@[simp] theorem MatF.sub_f (a b : MatF) (i j : ℕ) :
    (a - b).f i j = a.f i j - b.f i j := rfl

@[simp] theorem MatF.mul_f (a b : MatF) (i j : ℕ) :
    (a * b).f i j = a.f i j * b.f i j := rfl

@[simp] theorem MatF.div_f (a b : MatF) (i j : ℕ) :
    (a / b).f i j = a.f i j / b.f i j := rfl

@[simp] theorem MatF.scale_f (c : ℚ) (a : MatF) (i j : ℕ) :
    (a.scale c).f i j = c * a.f i j := rfl

@[simp] theorem MatF.addC_f (c : ℚ) (a : MatF) (i j : ℕ) :
    (a.addC c).f i j = a.f i j + c := rfl

@[simp] theorem MatF.add_h (a b : MatF) : (a + b).h = a.h := rfl

@[simp] theorem MatF.add_w (a b : MatF) : (a + b).w = a.w := rfl

@[simp] theorem MatF.sub_h (a b : MatF) : (a - b).h = a.h := rfl

@[simp] theorem MatF.sub_w (a b : MatF) : (a - b).w = a.w := rfl

@[simp] theorem MatF.mul_h (a b : MatF) : (a * b).h = a.h := rfl

@[simp] theorem MatF.mul_w (a b : MatF) : (a * b).w = a.w := rfl

@[simp] theorem MatF.div_h (a b : MatF) : (a / b).h = a.h := rfl

@[simp] theorem MatF.div_w (a b : MatF) : (a / b).w = a.w := rfl

@[simp] theorem MatF.scale_h (c : ℚ) (a : MatF) : (a.scale c).h = a.h := rfl

@[simp] theorem MatF.scale_w (c : ℚ) (a : MatF) : (a.scale c).w = a.w := rfl

@[simp] theorem MatF.addC_h (c : ℚ) (a : MatF) : (a.addC c).h = a.h := rfl

@[simp] theorem MatF.addC_w (c : ℚ) (a : MatF) : (a.addC c).w = a.w := rfl

/-- C5: the UIQI quality map is the piecewise function — default value 1;
where `denominator1 == 0` and the sum-of-squares term is non-zero, the
value `2*cross/ssum`; where the full denominator is non-zero, the value
`numerator/denominator`, this last substitution taking precedence at any
pixel satisfying both conditions (it is assigned after the first) — and
the per-channel result is the mean of this map after cropping half the
block size from every border. -/
theorem uiqi_qmap_piecewise_with_precedence (uf : UFilter) (bs : ℕ)
    (im1 im2 : MatF) (i j : ℕ) :
    ((UIQI.terms uf bs im1 im2).denominator.f i j ≠ 0 →
      (UIQI.qmap uf bs im1 im2).f i j =
        (UIQI.terms uf bs im1 im2).numerator.f i j /
          (UIQI.terms uf bs im1 im2).denominator.f i j) ∧
    ((UIQI.terms uf bs im1 im2).denominator.f i j = 0 →
      (UIQI.terms uf bs im1 im2).denominator1.f i j = 0 →
      (UIQI.terms uf bs im1 im2).ssum.f i j ≠ 0 →
      (UIQI.qmap uf bs im1 im2).f i j =
        2 * (UIQI.terms uf bs im1 im2).cross.f i j /
          (UIQI.terms uf bs im1 im2).ssum.f i j) ∧
    ((UIQI.terms uf bs im1 im2).denominator.f i j = 0 →
      ((UIQI.terms uf bs im1 im2).denominator1.f i j ≠ 0 ∨
        (UIQI.terms uf bs im1 im2).ssum.f i j = 0) →
      (UIQI.qmap uf bs im1 im2).f i j = 1) ∧
    (∀ chn : Option ℕ,
      UIQI.uiqi_single_channel uf ⟨chn, bs⟩ im1 im2 =
        (pySliceCrop (bs / 2) (UIQI.qmap uf bs im1 im2)).mean) := by
  refine ⟨?_, ?_, ?_, fun chn => rfl⟩
  · intro hd
    simp only [UIQI.qmap, if_pos hd]
  · intro hd hd1 hs
    simp only [UIQI.qmap]
    rw [if_neg (by simpa using hd), if_pos ⟨hd1, hs⟩]
  · intro hd hor
    simp only [UIQI.qmap]
    rw [if_neg (by simpa using hd), if_neg (by tauto)]

/-- Witness for C5 at a concrete instantiation (identity filter, default
block size, a constant 1x1 channel, pixel (0,0)). -/
theorem uiqi_qmap_piecewise_witness :
    ((UIQI.terms idUFilter 8 ⟨1, 1, fun _ _ => 1⟩ ⟨1, 1, fun _ _ => 1⟩).denominator.f 0 0 ≠ 0 →
      (UIQI.qmap idUFilter 8 ⟨1, 1, fun _ _ => 1⟩ ⟨1, 1, fun _ _ => 1⟩).f 0 0 =
        (UIQI.terms idUFilter 8 ⟨1, 1, fun _ _ => 1⟩ ⟨1, 1, fun _ _ => 1⟩).numerator.f 0 0 /
          (UIQI.terms idUFilter 8 ⟨1, 1, fun _ _ => 1⟩ ⟨1, 1, fun _ _ => 1⟩).denominator.f 0 0) ∧
    ((UIQI.terms idUFilter 8 ⟨1, 1, fun _ _ => 1⟩ ⟨1, 1, fun _ _ => 1⟩).denominator.f 0 0 = 0 →
      (UIQI.terms idUFilter 8 ⟨1, 1, fun _ _ => 1⟩ ⟨1, 1, fun _ _ => 1⟩).denominator1.f 0 0 = 0 →
      (UIQI.terms idUFilter 8 ⟨1, 1, fun _ _ => 1⟩ ⟨1, 1, fun _ _ => 1⟩).ssum.f 0 0 ≠ 0 →
      (UIQI.qmap idUFilter 8 ⟨1, 1, fun _ _ => 1⟩ ⟨1, 1, fun _ _ => 1⟩).f 0 0 =
        2 * (UIQI.terms idUFilter 8 ⟨1, 1, fun _ _ => 1⟩ ⟨1, 1, fun _ _ => 1⟩).cross.f 0 0 /
          (UIQI.terms idUFilter 8 ⟨1, 1, fun _ _ => 1⟩ ⟨1, 1, fun _ _ => 1⟩).ssum.f 0 0) ∧
    ((UIQI.terms idUFilter 8 ⟨1, 1, fun _ _ => 1⟩ ⟨1, 1, fun _ _ => 1⟩).denominator.f 0 0 = 0 →
      ((UIQI.terms idUFilter 8 ⟨1, 1, fun _ _ => 1⟩ ⟨1, 1, fun _ _ => 1⟩).denominator1.f 0 0 ≠ 0 ∨
        (UIQI.terms idUFilter 8 ⟨1, 1, fun _ _ => 1⟩ ⟨1, 1, fun _ _ => 1⟩).ssum.f 0 0 = 0) →
      (UIQI.qmap idUFilter 8 ⟨1, 1, fun _ _ => 1⟩ ⟨1, 1, fun _ _ => 1⟩).f 0 0 = 1) ∧
    (∀ chn : Option ℕ,
      UIQI.uiqi_single_channel idUFilter ⟨chn, 8⟩ ⟨1, 1, fun _ _ => 1⟩ ⟨1, 1, fun _ _ => 1⟩ =
        (pySliceCrop (8 / 2) (UIQI.qmap idUFilter 8 ⟨1, 1, fun _ _ => 1⟩ ⟨1, 1, fun _ _ => 1⟩)).mean) :=
  uiqi_qmap_piecewise_with_precedence idUFilter 8 _ _ 0 0

/-- C6: the VIF-P per-scale degeneracy guards, applied in source order
(zero `g`/`sv_sq` where `sigma1_sq < eps`, then zero `sigma1_sq`; zero
`g`/`sv_sq` where `sigma2_sq < eps`; reset `sv_sq` and zero `g` where
`g < 0`; finally clamp `sv_sq` to at least `eps`), have exactly the
following net effect at every pixel (stated on the clamped variances
`a`, `b` and the initial gain `g0 = sigma12/(sigma1_sq + eps)`). -/
theorem vifp_guards_applied_in_order (s1 s2 s12 : MatF) (i j : ℕ) :
    ((VIFP.guardStage s1 s2 s12).1.f i j =
      (let a := if s1.f i j < 0 then 0 else s1.f i j
       let b := if s2.f i j < 0 then 0 else s2.f i j
       let g0 := s12.f i j / (a + VIFP.eps)
       if a < VIFP.eps ∨ b < VIFP.eps ∨ g0 < 0 then 0 else g0)) ∧
    ((VIFP.guardStage s1 s2 s12).2.1.f i j =
      (let a := if s1.f i j < 0 then 0 else s1.f i j
       let b := if s2.f i j < 0 then 0 else s2.f i j
       let g0 := s12.f i j / (a + VIFP.eps)
       let sv0 := b - g0 * s12.f i j
       let sv3 := if b < VIFP.eps then 0
         else if a < VIFP.eps then b
         else if g0 < 0 then b
         else sv0
       if sv3 ≤ VIFP.eps then VIFP.eps else sv3)) ∧
    ((VIFP.guardStage s1 s2 s12).2.2.f i j =
      (let a := if s1.f i j < 0 then 0 else s1.f i j
       if a < VIFP.eps then 0 else a)) := by
  simp only [VIFP.guardStage, MatF.div_f, MatF.sub_f, MatF.mul_f, MatF.addC_f]
  set x := s1.f i j with hx
  set y := s2.f i j with hy
  set z := s12.f i j with hz
  set a := if x < 0 then 0 else x with ha
  set b := if y < 0 then 0 else y with hb
  set g0 := z / (a + VIFP.eps) with hg0
  set sv0 := b - g0 * z with hsv0
  refine ⟨?_, ?_, trivial⟩
  · by_cases hbe : b < VIFP.eps <;> by_cases hae : a < VIFP.eps <;>
      by_cases hg : g0 < 0 <;>
      simp [hbe, hae, hg]
  · have h3 : (if (if b < VIFP.eps then 0 else if a < VIFP.eps then 0 else g0) < 0
        then b else if b < VIFP.eps then 0 else if a < VIFP.eps then b else sv0) =
      (if b < VIFP.eps then 0
        else if a < VIFP.eps then b
        else if g0 < 0 then b
        else sv0) := by
      by_cases hbe : b < VIFP.eps <;> by_cases hae : a < VIFP.eps <;>
        by_cases hg : g0 < 0 <;>
        simp [hbe, hae, hg]
    rw [h3]

theorem npMeanOpt_replicate_none (n : ℕ) :
    npMeanOpt (List.replicate n none) = none := by
  cases n with
  | zero => rfl
  | succ k => simp [npMeanOpt, List.replicate_succ]

theorem mssim_empty_crop_none (gf : GFilter)
    (Hgf : ∀ s t m, (gf s t m).h = m.h ∧ (gf s t m).w = m.w)
    (cfg : SSIM) (c1 c2 : MatF)
    (hsmall : c1.h < 2 * cfg.pad ∨ c1.w < 2 * cfg.pad) :
    SSIM.mssim_single_channel gf cfg c1 c2 = none := by
  have hh1 : (gf cfg.sigma cfg.truncate c1).h = c1.h := (Hgf _ _ _).1
  have hw1 : (gf cfg.sigma cfg.truncate c1).w = c1.w := (Hgf _ _ _).2
  have hcond : c1.h - 2 * cfg.pad = 0 ∨ c1.w - 2 * cfg.pad = 0 := by omega
  simp only [SSIM.mssim_single_channel, MatF.mean, crop_array, MatF.div_h,
    MatF.mul_h, MatF.addC_h, MatF.scale_h, MatF.div_w, MatF.mul_w,
    MatF.addC_w, MatF.scale_w, hh1, hw1]
  rw [if_pos hcond]

theorem ssim_chanLoop_all_none (gf : GFilter)
    (Hgf : ∀ s t m, (gf s t m).h = m.h ∧ (gf s t m).w = m.w)
    (cfg : SSIM) (h w c : ℕ) (f1 f2 : ℕ → ℕ → ℕ → ℚ)
    (hsmall : h < 2 * cfg.pad ∨ w < 2 * cfg.pad) :
    ∀ n, n ≤ c → chanLoop (SSIM.mssim_single_channel gf cfg)
      (Buf.color h w c f1) (Buf.color h w c f2) n =
        .ok (List.replicate n none) := by
  intro n
  induction n with
  | zero => intro _; rfl
  | succ k ih =>
    intro hk
    have hkc : k < c := Nat.lt_of_succ_le hk
    rw [chanLoop, ih (Nat.le_of_succ_le hk)]
    have hs1 : (Buf.color h w c f1).sliceChannel k =
        .ok ⟨h, w, fun i j => f1 i j k⟩ := by
      simp [Buf.sliceChannel, hkc]
    have hs2 : (Buf.color h w c f2).sliceChannel k =
        .ok ⟨h, w, fun i j => f2 i j k⟩ := by
      simp [Buf.sliceChannel, hkc]
    have hnone : SSIM.mssim_single_channel gf cfg
        ⟨h, w, fun i j => f1 i j k⟩ ⟨h, w, fun i j => f2 i j k⟩ = none :=
      mssim_empty_crop_none gf Hgf cfg _ _ hsmall
    simp [hs1, hs2, hnone, List.replicate_succ', Bind.bind, Except.bind]

theorem ssimDefault_pad : ssimDefault.pad = 5 := by
  norm_num [SSIM.pad, ssimDefault, pyInt, Rat.floor]
  rfl

/-- C4 counterexample: at the default configuration (`pad = 5`) on a
4x4 single-channel pair (smaller than `2*pad` in both dimensions),
`SSIM.analyze` does not fail with a size-validation error (or any other
error): it succeeds and returns the NaN mean of the empty cropped map. -/
theorem ssim_small_image_no_error_counterexample :
    SSIM.analyze idGFilter ssimDefault
      ⟨⟨Buf.color 4 4 1 fun _ _ _ => 0⟩, ⟨Buf.color 4 4 1 fun _ _ _ => 0⟩⟩ =
      .ok none := by
  have key := ssim_chanLoop_all_none idGFilter (fun _ _ _ => ⟨rfl, rfl⟩)
    ssimDefault 4 4 1 (fun _ _ _ => 0) (fun _ _ _ => 0)
    (by rw [ssimDefault_pad]; norm_num) 1 (by decide)
  simp only [SSIM.analyze, ImagePair.get_zero, ImagePair.as_floats,
    Image.as_float, Image.channels_num, Buf.channels_num]
  rw [show pyOrNat ssimDefault.channels_num 1 = 1 from rfl, key]
  simp [npMeanOpt]

/-- C4 (amended): for every SSIM configuration and image pair whose
per-channel planes are smaller than `2*pad` in either dimension
(`pad = int(truncate*sigma + 0.5)`), `SSIM.analyze` does not fail with a
size-validation error: it succeeds, and the per-channel SSIM map is
averaged over the empty cropped region, so the result is NaN. (The
dimensions are required positive and the channel count in range so that
nothing else raises first; the filter is shape-preserving as scipy's
is.) -/
theorem ssim_small_image_nan_instead_of_error (gf : GFilter)
    (Hgf : ∀ s t m, (gf s t m).h = m.h ∧ (gf s t m).w = m.w)
    (cfg : SSIM) (h w c : ℕ) (f1 f2 : ℕ → ℕ → ℕ → ℚ)
    (_hh : 0 < h) (_hw : 0 < w)
    (hch : pyOrNat cfg.channels_num c ≤ c)
    (hsmall : h < 2 * cfg.pad ∨ w < 2 * cfg.pad) :
    SSIM.analyze gf cfg ⟨⟨Buf.color h w c f1⟩, ⟨Buf.color h w c f2⟩⟩ =
      .ok none := by
  have key := ssim_chanLoop_all_none gf Hgf cfg h w c f1 f2 hsmall
    (pyOrNat cfg.channels_num c) hch
  simp only [SSIM.analyze, ImagePair.get_zero, ImagePair.as_floats,
    Image.as_float, Image.channels_num, Buf.channels_num]
  rw [key]
  simp [npMeanOpt_replicate_none]

/-- Witness for the amended C4 at the concrete counterexample input. -/
theorem ssim_small_image_nan_witness :
    (∀ s t m, (idGFilter s t m).h = m.h ∧ (idGFilter s t m).w = m.w) ∧
    0 < 4 ∧ 0 < 4 ∧ pyOrNat ssimDefault.channels_num 1 ≤ 1 ∧
    (4 < 2 * ssimDefault.pad ∨ 4 < 2 * ssimDefault.pad) ∧
    SSIM.analyze idGFilter ssimDefault
      ⟨⟨Buf.color 4 4 1 fun _ _ _ => 0⟩, ⟨Buf.color 4 4 1 fun _ _ _ => 0⟩⟩ =
      .ok none :=
  ⟨fun _ _ _ => ⟨rfl, rfl⟩, by decide, by decide, by decide,
    by rw [ssimDefault_pad]; norm_num,
    ssim_small_image_nan_instead_of_error idGFilter (fun _ _ _ => ⟨rfl, rfl⟩)
      ssimDefault 4 4 1 _ _ (by decide) (by decide) (by decide)
      (by rw [ssimDefault_pad]; norm_num)⟩

theorem sam_norm_zero_vector_zero {c : ℕ} {f : ℕ → ℕ → ℕ → ℚ} {i j : ℕ}
    (h0 : SAM.norm2 c f i j = 0) :
    ∀ ch ∈ Finset.range c, ((f i j ch : ℝ)) = 0 := by
  intro ch hch
  have hsum : ∑ ch in Finset.range c, ((f i j ch : ℝ)) ^ 2 = 0 := by
    have hle := Real.sqrt_eq_zero'.mp h0
    have hge : (0 : ℝ) ≤ ∑ ch in Finset.range c, ((f i j ch : ℝ)) ^ 2 :=
      Finset.sum_nonneg fun _ _ => sq_nonneg _
    linarith
  have hz := (Finset.sum_eq_zero_iff_of_nonneg
    (fun _ _ => sq_nonneg _)).mp hsum ch hch
  exact (pow_eq_zero_iff (two_ne_zero)).mp hz

theorem sam_den_zero_dot_zero {c : ℕ} {f1 f2 : ℕ → ℕ → ℕ → ℚ} {i j : ℕ}
    (hden : SAM.norm2 c f1 i j * SAM.norm2 c f2 i j = 0) :
    ((SAM.dot c f1 f2 i j : ℚ) : ℝ) = 0 := by
  have hcast : ((SAM.dot c f1 f2 i j : ℚ) : ℝ) =
      ∑ ch in Finset.range c, ((f1 i j ch : ℝ)) * ((f2 i j ch : ℝ)) := by
    unfold SAM.dot
    push_cast
    ring
  rw [hcast]
  rcases mul_eq_zero.mp hden with h0 | h0
  · exact Finset.sum_eq_zero fun ch hch => by
      rw [sam_norm_zero_vector_zero h0 ch hch, zero_mul]
  · exact Finset.sum_eq_zero fun ch hch => by
      rw [sam_norm_zero_vector_zero h0 ch hch, mul_zero]

/-- C8: `SAM.analyze` computes, for every pixel of a (3-D, matching
shape, non-empty) pair, the angle `arccos` of the per-pixel
channel-vector dot product divided by the product of the two vectors'
norms, the ratio clipped to `[-1, 1]`; angles are scaled by `180/pi`
exactly when `to_degrees` is set; NaN angles (zero-vector pixels, where
the norm product vanishes) contribute `0` to the final average over all
pixels. -/
theorem sam_mean_of_clipped_arccos_angles (deg : Bool) (h w c : ℕ)
    (f1 f2 : ℕ → ℕ → ℕ → ℚ) (hh : 0 < h) (hw : 0 < w) :
    SAM.analyze ⟨deg⟩ ⟨⟨Buf.color h w c f1⟩, ⟨Buf.color h w c f2⟩⟩ =
      .ok (some ((∑ i in Finset.range h, ∑ j in Finset.range w,
        (if SAM.norm2 c f1 i j * SAM.norm2 c f2 i j = 0 then 0
         else (if deg then (180 / Real.pi) else 1) *
           Real.arccos (max (-1) (min 1
             (((SAM.dot c f1 f2 i j : ℚ) : ℝ) /
               (SAM.norm2 c f1 i j * SAM.norm2 c f2 i j)))))) /
        ((h : ℝ) * (w : ℝ)))) := by
  simp only [SAM.analyze, SAM.anglesRad, ImagePair.as_floats, Image.as_float]
  rw [if_neg (by omega : ¬(h = 0 ∨ w = 0))]
  congr 1
  congr 1
  congr 1
  apply Finset.sum_congr rfl
  intro i _
  apply Finset.sum_congr rfl
  intro j _
  by_cases hden : SAM.norm2 c f1 i j * SAM.norm2 c f2 i j = 0
  · have hnum := sam_den_zero_dot_zero hden
    cases deg
    · simp [hden, hnum]
    · simp [hden, hnum]
  · cases deg
    · simp [hden]
    · simp [hden]
      ring

/-- Witness for C8 at a concrete 1x1 two-channel pair of constant 1
pixels, degrees enabled. -/
theorem sam_mean_of_clipped_arccos_angles_witness :
    0 < 1 ∧ 0 < 1 ∧
    SAM.analyze ⟨true⟩ ⟨⟨Buf.color 1 1 2 fun _ _ _ => 1⟩,
        ⟨Buf.color 1 1 2 fun _ _ _ => 1⟩⟩ =
      .ok (some ((∑ i in Finset.range 1, ∑ j in Finset.range 1,
        (if SAM.norm2 2 (fun _ _ _ => (1 : ℚ)) i j *
            SAM.norm2 2 (fun _ _ _ => (1 : ℚ)) i j = 0 then 0
         else (if true then (180 / Real.pi) else 1) *
           Real.arccos (max (-1) (min 1
             (((SAM.dot 2 (fun _ _ _ => (1 : ℚ)) (fun _ _ _ => (1 : ℚ)) i j : ℚ) : ℝ) /
               (SAM.norm2 2 (fun _ _ _ => (1 : ℚ)) i j *
                 SAM.norm2 2 (fun _ _ _ => (1 : ℚ)) i j)))))) /
        (((1 : ℕ) : ℝ) * ((1 : ℕ) : ℝ)))) :=
  ⟨by decide, by decide,
    sam_mean_of_clipped_arccos_angles true 1 1 2 _ _ (by decide) (by decide)⟩
